import Mathlib

/-!
Verification of the WhisperLive speech-to-text session core
(`src/features/common/ai/providers/zen.js`): the linear-interpolation
resampler `resampleAndConvertToFloat32`, the segment reconciler inside
`WhisperSTTSession._handleServerMessage`, the initialization / timeout
logic of `WhisperSTTSession.initialize`, the readiness guard of
`WhisperSTTSession.sendRealtimeInput`, and `WhisperSTTSession.close`.

JavaScript numbers are modelled as rationals (`ℚ`); all quantities the
claims mention (sample counts, list lengths, emitted texts) are exact in
that model.  Byte buffers are lists of naturals, strings are Lean strings.
-/

namespace Zen

/-! ## Data model: wire-level segments and emitted transcription events -/

/-- Wire-level transcript segment, per the inbound `segments` array:
`{text, completed, start, end}`.  A missing `text` field is modelled as the
empty string, matching the `(seg.text || '')` read in the source. -/
structure TranscriptSegment where
  text : String
  completed : Bool
  start : ℚ
  endTime : ℚ
deriving DecidableEq

/-- Payload of an emitted `transcription` event.  The source also attaches
`timestamp: Date.now()` and the constant `confidence: 1.0`; the wall-clock
timestamp is outside this model and the constant carries no information, so
both are omitted. -/
structure TranscriptionEvent where
  text : String
  sessionId : String
  start : ℚ
  endTime : ℚ
deriving DecidableEq

/-- Inbound server message after JSON parsing.  The dispatch in
`_handleServerMessage` looks at `msg.message`, `msg.status`,
`msg.segments` and `msg.language`.  In the source an absent `segments`
field and an empty array behave identically (both fail the
`msg.segments && msg.segments.length > 0` guard), so `segments` is a plain
list with `[]` covering both. -/
structure ServerMsg where
  message : Option String
  status : Option String
  segments : List TranscriptSegment
  language : Option String
  backend : Option String
deriving DecidableEq

/-- Reconciliation state of a session: the fields
`emittedCompletedCount` and `lastEmittedText` of `WhisperSTTSession`. -/
structure RecState where
  emittedCompletedCount : Nat
  lastEmittedText : String
deriving DecidableEq

/-- Reconciliation state of a freshly constructed session. -/
def initialRecState : RecState := ⟨0, ""⟩

/-! ## Segment reconciler (`_handleServerMessage`, segments branch) -/

/-- Whitespace for the purpose of JavaScript `String.prototype.trim`
(ASCII part; the Unicode additions never occur in the claims). -/
def jsWhitespace (c : Char) : Bool :=
  c = ' ' || c = '\t' || c = '\n' || c = '\r' || c = '\x0b' || c = '\x0c'

/-- JavaScript `String.prototype.trim`: strip leading and trailing
whitespace.  Defined structurally over the character list so that it
evaluates inside the kernel (the Lean core `String.trim` recurses on byte
positions and does not). -/
def jsTrim (s : String) : String :=
  ⟨((s.data.dropWhile jsWhitespace).reverse.dropWhile jsWhitespace).reverse⟩

/-- The `for (const seg of newCompleted)` loop of `_handleServerMessage`:
trim the text, and when it is non-empty and different from
`lastEmittedText`, update `lastEmittedText` and emit a transcription
event.  Returns the final `lastEmittedText` and the emitted events in
order. -/
def emitLoop (sid : String) (last : String) :
    List TranscriptSegment → String × List TranscriptionEvent
  | [] => (last, [])
  | seg :: rest =>
    let text := jsTrim seg.text
    if text ≠ "" ∧ text ≠ last then
      let r := emitLoop sid text rest
      (r.1, { text := text, sessionId := sid,
              start := seg.start, endTime := seg.endTime } :: r.2)
    else
      emitLoop sid last rest

/-- State effect of `_handleServerMessage` on the reconciliation state,
with the emitted `transcription` events.  The `SERVER_READY`, `WAIT` and
`DISCONNECT` arms return before the segments branch; the lifecycle side
effects of those arms (and the `this.close()` call on `DISCONNECT`) are
modelled in the lifecycle section below, as they do not touch the
reconciliation fields.  The `msg.language` branch only logs. -/
def handleServerMessage (sid : String) (st : RecState) (msg : ServerMsg) :
    RecState × List TranscriptionEvent :=
  if msg.message = some "SERVER_READY" then (st, [])
  else if msg.status = some "WAIT" then (st, [])
  else if msg.message = some "DISCONNECT" then (st, [])
  else if 0 < msg.segments.length then
    let completedSegments := msg.segments.filter (fun s => s.completed)
    let newCompleted := completedSegments.drop st.emittedCompletedCount
    let r := emitLoop sid st.lastEmittedText newCompleted
    ({ emittedCompletedCount := completedSegments.length,
       lastEmittedText := r.1 }, r.2)
  else (st, [])

/-- Processing of a sequence of inbound messages in arrival order,
collecting all emitted transcription events. -/
def runMessages (sid : String) (st : RecState) :
    List ServerMsg → RecState × List TranscriptionEvent
  | [] => (st, [])
  | m :: rest =>
    let r1 := handleServerMessage sid st m
    let r2 := runMessages sid r1.1 rest
    (r2.1, r1.2 ++ r2.2)

/-- A pure segments message, with no `message`/`status`/`language` field. -/
def segMsg (segs : List TranscriptSegment) : ServerMsg :=
  ⟨none, none, segs, none, none⟩

/-- Completed segment carrying `"hi"`, from Scenario B. -/
def hiSeg : TranscriptSegment := ⟨"hi", true, 0, 1⟩

/-- Completed segment carrying `"there"`, from Scenario B. -/
def thereSeg : TranscriptSegment := ⟨"there", true, 1, 2⟩

/-- An incomplete segment (`completed: false`). -/
def pendingSeg : TranscriptSegment := ⟨"x", false, 0, 1⟩

/-! ## Reconciler lemmas -/

lemma getLast?_cons_foldl (l : List String) :
    ∀ a : String, (a :: l).getLast? = some (l.foldl (fun _ t => t) a) := by
  induction l with
  | nil => intro a; rfl
  | cons b t ih =>
    intro a
    rw [List.getLast?_cons_cons, ih b]
    rfl

/-- Main loop invariant: the emitted texts, prefixed with the incoming
`lastEmittedText`, form a chain of pairwise-distinct neighbours, and the
final `lastEmittedText` is the last emitted text (or the incoming one when
nothing was emitted). -/
lemma emitLoop_chain (sid : String) :
    ∀ (segs : List TranscriptSegment) (last : String),
      List.Chain' Ne (last :: ((emitLoop sid last segs).2.map (fun e => e.text))) ∧
      (emitLoop sid last segs).1
        = ((emitLoop sid last segs).2.map (fun e => e.text)).foldl (fun _ t => t) last := by
  intro segs
  induction segs with
  | nil => intro last; simp [emitLoop]
  | cons seg rest ih =>
    intro last
    by_cases h : jsTrim seg.text ≠ "" ∧ jsTrim seg.text ≠ last
    · obtain ⟨ch, fl⟩ := ih (jsTrim seg.text)
      simp only [emitLoop, if_pos h, List.map_cons]
      refine ⟨List.chain'_cons.mpr ⟨Ne.symm h.2, ch⟩, ?_⟩
      simpa using fl
    · simp only [emitLoop, if_neg h]
      exact ih last

/-- Per-message invariant: chain property and final `lastEmittedText` for a
single `_handleServerMessage` call. -/
lemma handle_chain (sid : String) (st : RecState) (msg : ServerMsg) :
    List.Chain' Ne
      (st.lastEmittedText :: ((handleServerMessage sid st msg).2.map (fun e => e.text))) ∧
    ((handleServerMessage sid st msg).1).lastEmittedText
      = ((handleServerMessage sid st msg).2.map (fun e => e.text)).foldl
          (fun _ t => t) st.lastEmittedText := by
  unfold handleServerMessage
  split
  · simp
  split
  · simp
  split
  · simp
  split
  · exact emitLoop_chain sid _ st.lastEmittedText
  · simp

/-- Whole-run invariant: over any message sequence, the emitted texts
prefixed with the starting `lastEmittedText` form a chain of
pairwise-distinct neighbours, and the final `lastEmittedText` is the last
emitted text. -/
lemma run_chain (sid : String) :
    ∀ (msgs : List ServerMsg) (st : RecState),
      List.Chain' Ne
        (st.lastEmittedText :: ((runMessages sid st msgs).2.map (fun e => e.text))) ∧
      ((runMessages sid st msgs).1).lastEmittedText
        = ((runMessages sid st msgs).2.map (fun e => e.text)).foldl
            (fun _ t => t) st.lastEmittedText := by
  intro msgs
  induction msgs with
  | nil => intro st; simp [runMessages]
  | cons m rest ih =>
    intro st
    obtain ⟨hch, hfl⟩ := handle_chain sid st m
    obtain ⟨ich, ifl⟩ := ih (handleServerMessage sid st m).1
    simp only [runMessages, List.map_append]
    have hsplit :
        st.lastEmittedText ::
            (((handleServerMessage sid st m).2.map (fun e => e.text)) ++
              ((runMessages sid (handleServerMessage sid st m).1 rest).2.map
                (fun e => e.text)))
          = (st.lastEmittedText ::
              ((handleServerMessage sid st m).2.map (fun e => e.text))) ++
            ((runMessages sid (handleServerMessage sid st m).1 rest).2.map
                (fun e => e.text)) := by
      simp
    constructor
    · rw [hsplit]
      refine List.chain'_append.mpr ⟨hch, (List.chain'_cons'.mp ich).2, ?_⟩
      intro x hx y hy
      rw [getLast?_cons_foldl] at hx
      have hx' : x = (handleServerMessage sid st m).1.lastEmittedText := by
        rw [hfl]
        exact (Option.some_inj.mp hx).symm
      subst hx'
      exact (List.chain'_cons'.mp ich).1 y hy
    · rw [List.foldl_append, ← hfl, ifl]

/-- C3 helper: one reconciliation step never decreases
`emittedCompletedCount` when the processed message carries at least as many
completed segments as already accounted for. -/
lemma handle_count_mono (sid : String) (st : RecState) (msg : ServerMsg)
    (h : msg.segments ≠ [] →
      st.emittedCompletedCount ≤ (msg.segments.filter (fun s => s.completed)).length) :
    st.emittedCompletedCount
      ≤ ((handleServerMessage sid st msg).1).emittedCompletedCount := by
  unfold handleServerMessage
  split
  · exact le_refl _
  split
  · exact le_refl _
  split
  · exact le_refl _
  split
  · rename_i hlen
    simpa using h (List.length_pos.mp hlen)
  · exact le_refl _

/-- Evaluation of `_handleServerMessage` on a nonempty pure segments
message. -/
lemma handle_segMsg_pos (sid : String) (st : RecState)
    (segs : List TranscriptSegment) (h : 0 < segs.length) :
    handleServerMessage sid st (segMsg segs)
      = ({ emittedCompletedCount := (segs.filter (fun s => s.completed)).length,
           lastEmittedText :=
             (emitLoop sid st.lastEmittedText
               ((segs.filter (fun s => s.completed)).drop st.emittedCompletedCount)).1 },
         (emitLoop sid st.lastEmittedText
               ((segs.filter (fun s => s.completed)).drop st.emittedCompletedCount)).2) := by
  unfold handleServerMessage
  rw [if_neg (by simp [segMsg]), if_neg (by simp [segMsg]),
    if_neg (by simp [segMsg]), if_pos (by simpa [segMsg] using h)]
  rfl

/-- Evaluation of `_handleServerMessage` on an empty segments message: the
guard `msg.segments && msg.segments.length > 0` fails and nothing
happens. -/
lemma handle_segMsg_zero (sid : String) (st : RecState)
    (segs : List TranscriptSegment) (h : ¬ 0 < segs.length) :
    handleServerMessage sid st (segMsg segs) = (st, []) := by
  unfold handleServerMessage
  rw [if_neg (by simp [segMsg]), if_neg (by simp [segMsg]),
    if_neg (by simp [segMsg]), if_neg (by simpa [segMsg] using h)]

/-! ## Claim theorems: reconciler -/

/-- C1: feeding a segments message whose completed-segment list equals the
one just processed emits no new transcription events; and for Scenario B
(first `[hi]` completed, then `[hi, there]` completed), exactly two
transcription events are emitted, with texts `"hi"` then `"there"`, and
`"hi"` is never re-emitted. -/
theorem reconciler_idempotent_and_scenarioB :
    (∀ (sid : String) (st : RecState) (segs1 segs2 : List TranscriptSegment),
        segs2.filter (fun s => s.completed) = segs1.filter (fun s => s.completed) →
        (handleServerMessage sid
            ((handleServerMessage sid st (segMsg segs1)).1) (segMsg segs2)).2 = [])
    ∧ (runMessages "s1" initialRecState
        [segMsg [hiSeg], segMsg [hiSeg, thereSeg]]).2.map (fun e => e.text)
        = ["hi", "there"] := by
  constructor
  · intro sid st segs1 segs2 hf
    by_cases h2 : 0 < segs2.length
    · by_cases h1 : 0 < segs1.length
      · rw [handle_segMsg_pos sid st segs1 h1, handle_segMsg_pos sid _ segs2 h2, hf]
        simp only [List.drop_length]
        rfl
      · have e1 : segs1 = [] := by
          cases segs1
          · rfl
          · simp at h1
        subst e1
        simp only [List.filter_nil] at hf
        rw [handle_segMsg_zero sid st [] h1, handle_segMsg_pos sid _ segs2 h2, hf]
        simp [emitLoop]
    · rw [handle_segMsg_zero sid _ segs2 h2]
  · decide

/-- C1 witness: repeating the singleton completed list `[hiSeg]` emits
nothing on the second feed. -/
theorem reconciler_idempotent_witness :
    (handleServerMessage "s1"
        ((handleServerMessage "s1" initialRecState (segMsg [hiSeg])).1)
        (segMsg [hiSeg])).2 = [] :=
  reconciler_idempotent_and_scenarioB.1 "s1" initialRecState [hiSeg] [hiSeg] rfl

/-- C3 counterexample: `emittedCompletedCount` decreases when a processed
segments message carries fewer completed segments than already accounted
for.  After `[hiSeg]` (count 1), a nonempty message whose segments are all
incomplete resets the count to 0. -/
theorem emittedCount_decreases_on_shrink :
    (handleServerMessage "s"
        ((handleServerMessage "s" initialRecState (segMsg [hiSeg])).1)
        (segMsg [pendingSeg])).1.emittedCompletedCount
      < ((handleServerMessage "s" initialRecState (segMsg [hiSeg])).1).emittedCompletedCount := by
  decide

/-- C3 amended: `emittedCompletedCount` is non-decreasing across every
processed message whose completed-segment list is at least as long as the
current `emittedCompletedCount`; a message with a shorter completed list
(the server shrinking its completed history) resets the counter downward
instead. -/
theorem emittedCount_monotone_without_shrink (sid : String) (st : RecState)
    (msg : ServerMsg)
    (h : msg.segments ≠ [] →
      st.emittedCompletedCount ≤ (msg.segments.filter (fun s => s.completed)).length) :
    st.emittedCompletedCount
      ≤ ((handleServerMessage sid st msg).1).emittedCompletedCount :=
  handle_count_mono sid st msg h

/-- C3 amended witness: a growing completed list keeps the counter
non-decreasing at a concrete input. -/
theorem emittedCount_monotone_witness :
    initialRecState.emittedCompletedCount
      ≤ ((handleServerMessage "s" initialRecState (segMsg [hiSeg])).1).emittedCompletedCount :=
  emittedCount_monotone_without_shrink "s" initialRecState (segMsg [hiSeg])
    (fun _ => by decide)

/-- C5: over every inbound message sequence, no two consecutively emitted
transcription events carry identical text. -/
theorem no_adjacent_duplicate_emissions (sid : String) (msgs : List ServerMsg) :
    List.Chain' (fun a b => a.text ≠ b.text)
      ((runMessages sid initialRecState msgs).2) := by
  have h := (run_chain sid msgs initialRecState).1
  have h2 := (List.chain'_cons'.mp h).2
  exact (List.chain'_map (fun e : TranscriptionEvent => e.text)).mp h2

/-- C7: for every message that reaches the segments-processing branch
(neither `SERVER_READY`, `WAIT` nor `DISCONNECT`, and a nonempty
`segments` array), the post-state counter equals the length of the
completed-filtered segment list, whether or not anything was emitted. -/
theorem emittedCount_tracks_completed_length (sid : String) (st : RecState)
    (msg : ServerMsg)
    (h1 : msg.message ≠ some "SERVER_READY") (h2 : msg.status ≠ some "WAIT")
    (h3 : msg.message ≠ some "DISCONNECT") (h4 : msg.segments ≠ []) :
    ((handleServerMessage sid st msg).1).emittedCompletedCount
      = (msg.segments.filter (fun s => s.completed)).length := by
  unfold handleServerMessage
  rw [if_neg h1, if_neg h2, if_neg h3, if_pos (List.length_pos.mpr h4)]

/-- C7 witness: a message whose only segment is incomplete sets the
counter to 0 even though nothing is emitted. -/
theorem emittedCount_tracks_completed_length_witness :
    ((handleServerMessage "s" ⟨1, "hi"⟩ (segMsg [pendingSeg])).1).emittedCompletedCount
      = ((segMsg [pendingSeg]).segments.filter (fun s => s.completed)).length :=
  emittedCount_tracks_completed_length "s" ⟨1, "hi"⟩ (segMsg [pendingSeg])
    (by decide) (by decide) (by decide) (by decide)

/-! ## Resampler (`resampleAndConvertToFloat32`)

The input buffer is a list of bytes; `Buffer.prototype.length` is the byte
count.  JavaScript numbers are modelled as rationals: every quantity the
function computes (`length / 2`, the ratio `16000 / 24000`, `i / ratio`,
the interpolation) is produced exactly by the corresponding rational
expression for all buffer sizes arising in practice, and the claims under
verification concern output lengths and sample identities, which are
insensitive to the sub-ulp rounding of the double computation. -/

/-- Model of `Buffer.prototype.readInt16LE`: two little-endian bytes as a
signed 16-bit integer.  Out-of-range offsets read as zero bytes; the
resampler is proved to stay in bounds wherever a claim depends on it. -/
def readInt16LE (buf : List Nat) (off : Nat) : Int :=
  let v := buf.getD off 0 + 256 * buf.getD (off + 1) 0
  if v < 32768 then (v : Int) else (v : Int) - 65536

/-- Loop body of `resampleAndConvertToFloat32` at output index `i`.  The
offset passed to the second read is `idx1 * 2`, which is an integral
rational in every reachable case (either `2 * (idx0 + 1)` or
`buf.length - 2`); the floor makes it a usable index without changing its
value. -/
def resampleAt (buf : List Nat) (i : Nat) : ℚ :=
  let numInputSamples : ℚ := (buf.length : ℚ) / 2
  let ratio : ℚ := (16000 : ℚ) / 24000
  let srcIdx : ℚ := (i : ℚ) / ratio
  let idx0 : ℤ := ⌊srcIdx⌋
  let idx1 : ℚ := min ((idx0 : ℚ) + 1) (numInputSamples - 1)
  let frac : ℚ := srcIdx - (idx0 : ℚ)
  let s0 : ℚ := (readInt16LE buf (idx0 * 2).toNat : ℚ) / 32768
  let s1 : ℚ := (readInt16LE buf (⌊idx1 * 2⌋).toNat : ℚ) / 32768
  s0 + (s1 - s0) * frac

/-- Model of `resampleAndConvertToFloat32`: linear-interpolation
resampling of 16-bit signed PCM at 24000 Hz to samples at 16000 Hz,
normalized to `[-1, 1]` by division by 32768. -/
def resampleAndConvertToFloat32 (buf : List Nat) : List ℚ :=
  let numInputSamples : ℚ := (buf.length : ℚ) / 2
  let ratio : ℚ := (16000 : ℚ) / 24000
  let numOutputSamples : ℕ := (⌊numInputSamples * ratio⌋).toNat
  (List.range numOutputSamples).map (resampleAt buf)

/-- The output sample count evaluates to `buf.length / 3` in natural
division: `⌊(length / 2) · (16000 / 24000)⌋ = ⌊length / 3⌋`. -/
lemma numOutput_eq (buf : List Nat) :
    (⌊((buf.length : ℚ) / 2) * ((16000 : ℚ) / 24000)⌋).toNat = buf.length / 3 := by
  have h : ((buf.length : ℚ) / 2) * ((16000 : ℚ) / 24000)
      = ((buf.length : ℤ) : ℚ) / ((3 : ℕ) : ℚ) := by
    push_cast
    ring
  rw [h, Rat.floor_intCast_div_natCast]
  omega

/-- Unfolding of the resampler as a map over output indices. -/
lemma resample_eq_map (buf : List Nat) :
    resampleAndConvertToFloat32 buf
      = (List.range (buf.length / 3)).map (resampleAt buf) := by
  unfold resampleAndConvertToFloat32
  simp only [numOutput_eq]

/-- The output length is always the byte length divided by 3. -/
lemma resample_length (buf : List Nat) :
    (resampleAndConvertToFloat32 buf).length = buf.length / 3 := by
  rw [resample_eq_map]
  simp

/-- Reading two bytes below the length of the left part of an appended
buffer ignores the right part. -/
lemma readInt16LE_append (l l' : List Nat) (off : Nat) (h : off + 1 < l.length) :
    readInt16LE (l ++ l') off = readInt16LE l off := by
  unfold readInt16LE
  rw [List.getD_append _ _ _ _ (by omega), List.getD_append _ _ _ _ h]

/-- Division by the fixed ratio turns an output index into a source
position of `3 i / 2`. -/
lemma srcIdx_eq (i : Nat) :
    ((i : ℚ) / ((16000 : ℚ) / 24000)) = (3 * i : ℚ) / 2 := by
  rw [show ((16000 : ℚ) / 24000) = 2 / 3 by norm_num]
  ring

set_option maxRecDepth 8000 in
/-- Core index analysis: for an output index below `2k/3` on a buffer of
`2k` bytes, appending one extra byte changes nothing — the clamp
`min(idx0 + 1, numInputSamples - 1)` resolves to `idx0 + 1` for both byte
lengths `2k` and `2k + 1`, and both reads stay inside the first `2k`
bytes. -/
lemma resampleAt_append (l : List Nat) (b : Nat) (k i : Nat)
    (hl : l.length = 2 * k) (hi : i < 2 * k / 3) :
    resampleAt (l ++ [b]) i = resampleAt l i := by
  have hq3 : (2 * k / 3) * 3 ≤ 2 * k := Nat.div_mul_le_self _ _
  have h3 : 3 * i + 3 ≤ 2 * k := by omega
  simp only [resampleAt, List.length_append, List.length_singleton, hl]
  rw [srcIdx_eq]
  set n : ℤ := ⌊(3 * i : ℚ) / 2⌋ with hn
  have h3q : (3 * i : ℚ) + 3 ≤ 2 * k := by exact_mod_cast h3
  have hn0 : 0 ≤ n := Int.le_floor.mpr (by positivity)
  have hnk : n ≤ (k : ℤ) - 2 := by
    have h1 : (n : ℚ) ≤ (3 * i : ℚ) / 2 := Int.floor_le _
    have h2 : (n : ℚ) < (k : ℚ) - 1 := by linarith
    have h2' : n < (k : ℤ) - 1 := by exact_mod_cast h2
    omega
  obtain ⟨m, hm⟩ := Int.eq_ofNat_of_zero_le hn0
  have hmk : m + 2 ≤ k := by omega
  rw [hm]
  have hmin1 : min (((m : ℤ) : ℚ) + 1) (((2 * k + 1 : ℕ) : ℚ) / 2 - 1)
      = ((m : ℤ) : ℚ) + 1 := by
    apply min_eq_left
    push_cast
    have : (m : ℚ) + 2 ≤ (k : ℚ) := by exact_mod_cast hmk
    linarith
  have hmin2 : min (((m : ℤ) : ℚ) + 1) (((2 * k : ℕ) : ℚ) / 2 - 1)
      = ((m : ℤ) : ℚ) + 1 := by
    apply min_eq_left
    push_cast
    have : (m : ℚ) + 2 ≤ (k : ℚ) := by exact_mod_cast hmk
    linarith
  rw [hmin1, hmin2]
  rw [show ((((m : ℤ) : ℚ) + 1) * 2) = (((2 * m + 2 : ℕ) : ℤ) : ℚ) by push_cast; ring,
    Int.floor_intCast, Int.toNat_natCast]
  rw [show ((m : ℤ) * 2) = ((2 * m : ℕ) : ℤ) by push_cast; ring, Int.toNat_natCast]
  rw [readInt16LE_append l [b] (2 * m) (by omega),
    readInt16LE_append l [b] (2 * m + 2) (by omega)]

/-! ## Claim theorems: resampler -/

/-- C2: an input buffer holding `N` 16-bit samples (2N bytes) yields
exactly `⌊N · 16000 / 24000⌋` output samples. -/
theorem resample_output_length (buf : List Nat) (N : Nat)
    (h : buf.length = 2 * N) :
    (resampleAndConvertToFloat32 buf).length = N * 16000 / 24000 := by
  rw [resample_length, h]
  omega

/-- C2 witness (Scenario C): 24000 input samples (48000 bytes) resample to
exactly 16000 output samples. -/
theorem resample_output_length_witness :
    (resampleAndConvertToFloat32 (List.replicate 48000 0)).length = 16000 := by
  have h := resample_output_length (List.replicate 48000 0) 24000
    (by rw [List.length_replicate])
  rw [show (24000 * 16000 / 24000 : ℕ) = 16000 by norm_num] at h
  exact h

/-- C10 counterexample: a 3-byte buffer does not behave like its first 2
bytes — the former produces one output sample, the latter none. -/
theorem resample_odd_not_truncation :
    resampleAndConvertToFloat32 [0, 0, 0] ≠ resampleAndConvertToFloat32 [0, 0] := by
  intro h
  have h1 := resample_length [0, 0, 0]
  have h2 := resample_length [0, 0]
  rw [h] at h1
  rw [h1] at h2
  simp at h2

/-- C10 amended: the function is total (no error conditions), but the
trailing half sample of an odd-length buffer is not simply truncated: it
participates in the output count.  For a buffer of `2k` bytes plus one
extra byte, the output of the `2k`-byte buffer is a prefix of the output
of the `2k + 1`-byte buffer, and the longer buffer has `(2k + 1) / 3`
output samples — one more than `2k / 3` exactly when `k ≡ 1 (mod 3)`. -/
theorem resample_truncated_is_prefix (l : List Nat) (b : Nat) (k : Nat)
    (hl : l.length = 2 * k) :
    resampleAndConvertToFloat32 l
        = (resampleAndConvertToFloat32 (l ++ [b])).take (2 * k / 3)
    ∧ (resampleAndConvertToFloat32 (l ++ [b])).length = (2 * k + 1) / 3 := by
  constructor
  · rw [resample_eq_map, resample_eq_map]
    simp only [List.length_append, List.length_singleton, hl]
    rw [← List.map_take, List.take_range,
      min_eq_left (Nat.div_le_div_right (by omega))]
    apply List.map_congr_left
    intro i hi
    exact (resampleAt_append l b k i hl (List.mem_range.mp hi)).symm
  · rw [resample_length]
    simp [hl]

/-- C10 amended witness: at `l = [0,0]`, `b = 0`, `k = 1` the prefix
property holds and the odd buffer has `(2·1+1)/3 = 1` output sample. -/
theorem resample_truncated_is_prefix_witness :
    resampleAndConvertToFloat32 [0, 0]
        = (resampleAndConvertToFloat32 ([0, 0] ++ [0])).take (2 * 1 / 3)
    ∧ (resampleAndConvertToFloat32 ([0, 0] ++ [0])).length = (2 * 1 + 1) / 3 :=
  resample_truncated_is_prefix [0, 0] 0 1 (by simp)

/-! ## Session lifecycle: WebSocket handle, audio input, send guard, close -/

/-- WebSocket ready states; the source only ever tests
`readyState === WebSocket.OPEN`.  (`open` is a Lean keyword, hence
`opened`.) -/
inductive WsReadyState where
  | connecting
  | opened
  | closing
  | closed
deriving DecidableEq

/-- The connection handle (`this.ws` when non-null). -/
structure WsHandle where
  readyState : WsReadyState
deriving DecidableEq

/-- Mutable session state of `WhisperSTTSession`: `model`, `isRunning`,
`serverReady`, the optional connection handle, the registered event
listeners of the emitter, and the reconciliation fields. -/
structure SessionState where
  model : String
  isRunning : Bool
  serverReady : Bool
  ws : Option WsHandle
  listeners : List String
  recState : RecState
deriving DecidableEq

/-- State of a freshly constructed session: no connection, not running,
not ready, zero reconciliation state. -/
def initialSession (model : String) : SessionState :=
  ⟨model, false, false, none, [], initialRecState⟩

/-- Value of a base64 alphabet character; `none` for every other
character, which Node discards (lenient decoding, `=` included). -/
def base64CharValue (c : Char) : Option Nat :=
  if 'A' ≤ c ∧ c ≤ 'Z' then some (c.toNat - 65)
  else if 'a' ≤ c ∧ c ≤ 'z' then some (c.toNat - 97 + 26)
  else if '0' ≤ c ∧ c ≤ '9' then some (c.toNat - 48 + 52)
  else if c = '+' then some 62
  else if c = '/' then some 63
  else none

/-- Regroup a sextet stream into bytes: full groups of four sextets give
three bytes, a trailing pair gives one byte, a trailing triple gives two,
and a single leftover sextet is discarded. -/
def decodeGroups : List Nat → List Nat
  | a :: b :: c :: d :: rest =>
      let n := ((a * 64 + b) * 64 + c) * 64 + d
      n / 65536 :: n / 256 % 256 :: n % 256 :: decodeGroups rest
  | [a, b] => [(a * 64 + b) / 16]
  | [a, b, c] => [((a * 64 + b) * 64 + c) / 1024, ((a * 64 + b) * 64 + c) / 4 % 256]
  | _ => []

/-- Model of `Buffer.from(s, 'base64')`.  Node never throws here — invalid
characters are skipped — so the `catch` around the decode in
`sendRealtimeInput` is unreachable. -/
def base64Decode (s : String) : List Nat :=
  decodeGroups (s.data.filterMap base64CharValue)

/-- The three accepted shapes of `sendRealtimeInput` input collapse to
two: a base64 string, or something already byte-bearing (`Buffer`,
`ArrayBuffer`, typed array — all normalized by `Buffer.from`). -/
inductive AudioInput where
  | b64 (s : String)
  | raw (bytes : List Nat)
deriving DecidableEq

/-- Normalization of the audio input to bytes. -/
def decodeAudioInput : AudioInput → List Nat
  | .b64 s => base64Decode s
  | .raw l => l

/-- Model of `sendRealtimeInput`: returns the transport payload written,
or `none` when the frame is dropped without any write (guard failed or
empty input).  The `try/catch` around `ws.send` swallows send errors and
does not alter what was attempted. -/
def sendRealtimeInput (st : SessionState) (audioData : AudioInput) :
    Option (List ℚ) :=
  if st.isRunning = false then none
  else
    match st.ws with
    | none => none
    | some w =>
      if w.readyState ≠ WsReadyState.opened then none
      else
        let bytes := decodeAudioInput audioData
        if bytes.length = 0 then none
        else some (resampleAndConvertToFloat32 bytes)

/-- Observable actions of `close()`, in program order. -/
inductive CloseAction where
  | sendEndOfAudio
  | closeTransport
  | removeAllListeners
deriving DecidableEq

/-- Model of `close()`.  `sendFails` / `closeFails` say whether the
corresponding transport call throws; both throws are caught by the
surrounding `try/catch`, so `close` is total for every flag combination.
A failing `END_OF_AUDIO` send aborts the `try` block, skipping the
transport close; a failing transport close changes nothing observable
(hence `closeFails` does not influence the result).  In all cases `ws` is
nulled and, last, all listeners are deregistered. -/
def closeSession (st : SessionState) (sendFails closeFails : Bool) :
    SessionState × List CloseAction :=
  let st1 := { st with isRunning := false }
  match st1.ws with
  | none => ({ st1 with listeners := [] }, [CloseAction.removeAllListeners])
  | some w =>
    let netActs :=
      if w.readyState = WsReadyState.opened then
        if sendFails then [CloseAction.sendEndOfAudio]
        else [CloseAction.sendEndOfAudio, CloseAction.closeTransport]
      else [CloseAction.closeTransport]
    ({ st1 with ws := none, listeners := [] },
      netActs ++ [CloseAction.removeAllListeners])

/-- Lifecycle events acting on a session: the `initialize()` call creating
the handle, the transport opening, an inbound message, a transport error,
the transport close event, and a `close()` call. -/
inductive LifeEvent where
  | initCall
  | wsOpenEvt
  | wsMessageEvt (m : ServerMsg)
  | wsErrorEvt
  | wsCloseEvt
  | closeCall
deriving DecidableEq

/-- One lifecycle step.  `SERVER_READY` sets `isRunning`/`serverReady`
(the message handler plus the resolve block of `initialize`); `DISCONNECT`
triggers `close()`; the ws `close` event clears both flags; `close()`
applies `closeSession`.  The error handler only emits. -/
def lifeStep (sid : String) (st : SessionState) : LifeEvent → SessionState
  | .initCall => { st with ws := some ⟨WsReadyState.connecting⟩ }
  | .wsOpenEvt => { st with ws := st.ws.map (fun _ => ⟨WsReadyState.opened⟩) }
  | .wsMessageEvt m =>
    let st1 := { st with recState := (handleServerMessage sid st.recState m).1 }
    if m.message = some "SERVER_READY" then
      { st1 with isRunning := true, serverReady := true }
    else if m.message = some "DISCONNECT" then
      (closeSession st1 false false).1
    else st1
  | .wsErrorEvt => st
  | .wsCloseEvt =>
    { st with
      isRunning := false
      serverReady := false
      ws := st.ws.map (fun _ => ⟨WsReadyState.closed⟩) }
  | .closeCall => (closeSession st false false).1

/-- Session state after a sequence of lifecycle events. -/
def stateAfter (sid : String) (st : SessionState) (evs : List LifeEvent) :
    SessionState :=
  evs.foldl (lifeStep sid) st

/-- The state part of `closeSession` always ends with a null handle. -/
lemma closeSession_ws_none (st : SessionState) (sf cf : Bool) :
    ((closeSession st sf cf).1).ws = none := by
  unfold closeSession
  cases st.ws <;> rfl

/-- Without a `SERVER_READY` message in the event sequence, `isRunning`
can never become true. -/
lemma isRunning_stays_false (sid : String) :
    ∀ (evs : List LifeEvent) (st : SessionState), st.isRunning = false →
      (∀ m, LifeEvent.wsMessageEvt m ∈ evs → m.message ≠ some "SERVER_READY") →
      (stateAfter sid st evs).isRunning = false := by
  intro evs
  induction evs with
  | nil => intro st h _; exact h
  | cons e rest ih =>
    intro st h hm
    have hrest : ∀ m, LifeEvent.wsMessageEvt m ∈ rest →
        m.message ≠ some "SERVER_READY" :=
      fun m hmem => hm m (List.mem_cons_of_mem _ hmem)
    cases e with
    | initCall => exact ih _ (by simpa [lifeStep] using h) hrest
    | wsOpenEvt => exact ih _ (by simpa [lifeStep] using h) hrest
    | wsMessageEvt m =>
      have hne : ¬ m.message = some "SERVER_READY" :=
        hm m (List.mem_cons_self _ _)
      by_cases hd : m.message = some "DISCONNECT"
      · exact ih _ (by simp [lifeStep, hne, hd, closeSession]; split <;> rfl) hrest
      · exact ih _ (by simpa [lifeStep, hne, hd] using h) hrest
    | wsErrorEvt => exact ih _ (by simpa [lifeStep] using h) hrest
    | wsCloseEvt => exact ih _ (by simp [lifeStep]) hrest
    | closeCall =>
      refine ih _ ?_ hrest
      simp [lifeStep, closeSession]
      split <;> rfl

/-- After `close()` nulls the handle, only another `initialize()` call can
recreate it. -/
lemma ws_stays_none (sid : String) :
    ∀ (evs : List LifeEvent) (st : SessionState), st.ws = none →
      LifeEvent.initCall ∉ evs →
      (stateAfter sid st evs).ws = none := by
  intro evs
  induction evs with
  | nil => intro st h _; exact h
  | cons e rest ih =>
    intro st h hm
    have hrest : LifeEvent.initCall ∉ rest := fun hc => hm (List.mem_cons_of_mem _ hc)
    cases e with
    | initCall => exact absurd (List.mem_cons_self _ _) hm
    | wsOpenEvt => exact ih _ (by simp [lifeStep, h]) hrest
    | wsMessageEvt m =>
      by_cases hr : m.message = some "SERVER_READY"
      · exact ih _ (by simpa [lifeStep, hr] using h) hrest
      · by_cases hd : m.message = some "DISCONNECT"
        · exact ih _ (by simp [lifeStep, hr, hd, closeSession_ws_none]) hrest
        · exact ih _ (by simpa [lifeStep, hr, hd] using h) hrest
    | wsErrorEvt => exact ih _ (by simpa [lifeStep] using h) hrest
    | wsCloseEvt => exact ih _ (by simp [lifeStep, h]) hrest
    | closeCall => exact ih _ (by simp [lifeStep, closeSession_ws_none]) hrest

/-- A null handle means no write, whatever the other fields say. -/
lemma send_none_of_ws_none (st : SessionState) (audio : AudioInput)
    (h : st.ws = none) : sendRealtimeInput st audio = none := by
  unfold sendRealtimeInput
  rw [h]
  by_cases hr : st.isRunning = false <;> simp [hr]

/-- A session that is not running performs no write. -/
lemma send_none_of_not_running (st : SessionState) (audio : AudioInput)
    (h : st.isRunning = false) : sendRealtimeInput st audio = none := by
  unfold sendRealtimeInput
  rw [if_pos h]

/-! ## Claim theorems: lifecycle -/

/-- C6: a `sendRealtimeInput` call in a session that is not ready — either
because `SERVER_READY` was never received, or because `close()` has been
called (and the single-use session was not re-initialized) — performs no
transport write and returns silently, for every input shape. -/
theorem send_before_ready_or_after_close_is_dropped
    (sid model : String) (evs : List LifeEvent) (audio : AudioInput)
    (h : (∀ m, LifeEvent.wsMessageEvt m ∈ evs → m.message ≠ some "SERVER_READY")
       ∨ (∃ pre post, evs = pre ++ LifeEvent.closeCall :: post
            ∧ LifeEvent.initCall ∉ post)) :
    sendRealtimeInput (stateAfter sid (initialSession model) evs) audio = none := by
  rcases h with h | ⟨pre, post, he, hpost⟩
  · exact send_none_of_not_running _ audio
      (isRunning_stays_false sid evs (initialSession model) rfl h)
  · subst he
    apply send_none_of_ws_none _ audio
    unfold stateAfter
    rw [List.foldl_append, List.foldl_cons]
    exact ws_stays_none sid post _ (closeSession_ws_none _ false false) hpost

/-- C6 witness: a send on a freshly constructed session (no events at all)
writes nothing. -/
theorem send_before_ready_witness :
    sendRealtimeInput (stateAfter "s" (initialSession "whisper-base") [])
      (AudioInput.raw [1, 2]) = none :=
  send_before_ready_or_after_close_is_dropped "s" "whisper-base" []
    (AudioInput.raw [1, 2]) (Or.inl (by simp))

/-- C9: `close()` is total for every combination of transport failures
(both throws are caught, so it never raises); its last action is always
the listener deregistration and afterwards no listeners remain; with no
connection ever established it performs no network action at all; with an
open transport it first attempts the `END_OF_AUDIO` sentinel, and when
that send does not throw, the exact action sequence is sentinel, transport
close, listener deregistration. -/
theorem close_best_effort (st : SessionState) (sendFails closeFails : Bool) :
    ((closeSession st sendFails closeFails).2).getLast?
        = some CloseAction.removeAllListeners
    ∧ ((closeSession st sendFails closeFails).1).listeners = []
    ∧ (st.ws = none →
        (closeSession st sendFails closeFails).2 = [CloseAction.removeAllListeners])
    ∧ (∀ w, st.ws = some w → w.readyState = WsReadyState.opened →
        ((closeSession st sendFails closeFails).2).head?
            = some CloseAction.sendEndOfAudio
        ∧ (sendFails = false →
            (closeSession st sendFails closeFails).2
              = [CloseAction.sendEndOfAudio, CloseAction.closeTransport,
                 CloseAction.removeAllListeners])) := by
  cases hws : st.ws with
  | none => simp [closeSession, hws]
  | some w => cases hrs : w.readyState <;> cases sendFails <;>
      simp [closeSession, hws, hrs]

/-- C9 witness: closing a ready session with an open transport and no
transport failures sends the sentinel, closes the transport, then
deregisters the listeners. -/
theorem close_best_effort_witness :
    (closeSession
        ⟨"whisper-base", true, true, some ⟨WsReadyState.opened⟩,
          ["transcription"], initialRecState⟩ false false).2
      = [CloseAction.sendEndOfAudio, CloseAction.closeTransport,
         CloseAction.removeAllListeners] :=
  ((close_best_effort
      ⟨"whisper-base", true, true, some ⟨WsReadyState.opened⟩,
        ["transcription"], initialRecState⟩ false false).2.2.2
    ⟨WsReadyState.opened⟩ rfl rfl).2 rfl

/-! ## Initialization (`initialize`): promise settlement and the 10 s timer

The inner `new Promise` of `initialize` settles through the WebSocket
handlers and a `setTimeout(…, 10000)`.  A run of the connection attempt is
a list of timestamped events (seconds since the attempt started; the
event loop delivers them in order, realized here by the time filter).  The
timer callback fires exactly when no `clearTimeout` ran before second 10;
`clearTimeout` is called by the `open` handler, by the `message` handler
on `SERVER_READY` only, and by the `error` and `close` handlers.  Events
at time ≥ 10 are processed after the timer. -/

/-- How the inner promise of `initialize` settles. -/
inductive SettleOutcome where
  | resolvedTrue
  | rejectedTimeout
  | rejectedError
  | rejectedClosed
deriving DecidableEq

/-- Raw connection events during `initialize` (the timer is not an event;
its firing is derived from the trace). -/
inductive InitEvent where
  | wsOpen
  | wsMessage (m : ServerMsg)
  | wsError
  | wsClose (code : Int)
deriving DecidableEq

/-- Whether the handler of an event calls `clearTimeout`: `open`, `error`
and `close` always do; the `message` handler only on `SERVER_READY`. -/
def clearsTimeout : InitEvent → Bool
  | .wsOpen => true
  | .wsMessage m => decide (m.message = some "SERVER_READY")
  | .wsError => true
  | .wsClose _ => true

/-- State visible to the promise: its settlement, the readiness flags and
the events emitted on the session emitter. -/
structure InitState where
  settled : Option SettleOutcome
  serverReady : Bool
  isRunning : Bool
  emitted : List String
deriving DecidableEq

/-- State when `initialize` arms the timer and opens the socket. -/
def initInitState : InitState := ⟨none, false, false, []⟩

/-- A promise settles only once; later settlements are no-ops. -/
def settleWith (st : InitState) (o : SettleOutcome) : InitState :=
  match st.settled with
  | some _ => st
  | none => { st with settled := some o }

/-- Effect of one connection event, per the handlers installed by
`initialize`: `open` sends the config (no state change here); a
`SERVER_READY` message sets `isRunning`/`serverReady` and resolves;
`error` emits an `error` event and rejects unless already ready; `close`
emits a `close` event, clears the flags, and — because `serverReady` was
just cleared — always attempts a rejection. -/
def stepInit (st : InitState) : InitEvent → InitState
  | .wsOpen => st
  | .wsMessage m =>
    if m.message = some "SERVER_READY" then
      settleWith { st with isRunning := true, serverReady := true }
        SettleOutcome.resolvedTrue
    else st
  | .wsError =>
    let st1 := { st with emitted := st.emitted ++ ["error"] }
    if st1.serverReady then st1 else settleWith st1 SettleOutcome.rejectedError
  | .wsClose _ =>
    settleWith
      { st with
        emitted := st.emitted ++ ["close"]
        isRunning := false
        serverReady := false }
      SettleOutcome.rejectedClosed

/-- The `setTimeout` callback runs iff no event before second 10 called
`clearTimeout`. -/
def timerFires (tr : List (ℚ × InitEvent)) : Bool :=
  tr.all (fun e => !(decide (e.1 < 10) && clearsTimeout e.2))

/-- Promise state at the end of a complete run: events before second 10,
then the timer rejection if it fires, then the rest. -/
def runInit (tr : List (ℚ × InitEvent)) : InitState :=
  if timerFires tr then
    ((tr.filter (fun e => !decide (e.1 < 10))).map Prod.snd).foldl stepInit
      (settleWith
        (((tr.filter (fun e => decide (e.1 < 10))).map Prod.snd).foldl stepInit
          initInitState)
        SettleOutcome.rejectedTimeout)
  else (tr.map Prod.snd).foldl stepInit initInitState

/-- Final settlement of the inner promise, `none` when it never settles. -/
def initSettle (tr : List (ℚ × InitEvent)) : Option SettleOutcome :=
  (runInit tr).settled

/-- How the async function `initialize()` itself completes towards its
caller. -/
inductive InitCompletion where
  | resolvedWith (b : Bool)
  | rejectedWith (o : SettleOutcome)
  | pending
deriving DecidableEq

/-- Discriminator: did `initialize()` reject (throw to the caller)? -/
def isRejectedCompletion : InitCompletion → Bool
  | .rejectedWith _ => true
  | _ => false

/-- Model of the whole `initialize()`: a failing server start is caught by
the outer `try/catch` (emit `error`, return `false`); otherwise the inner
promise is awaited and any rejection is likewise caught, emitting `error`
and returning `false`.  Event emission is modelled as list accumulation;
the `initialize` body never rethrows. -/
def initializeRun (serverStartFails : Bool) (tr : List (ℚ × InitEvent)) :
    InitCompletion × List String :=
  if serverStartFails then (InitCompletion.resolvedWith false, ["error"])
  else
    match (runInit tr).settled with
    | some SettleOutcome.resolvedTrue =>
        (InitCompletion.resolvedWith true, (runInit tr).emitted)
    | some _ =>
        (InitCompletion.resolvedWith false, (runInit tr).emitted ++ ["error"])
    | none => (InitCompletion.pending, (runInit tr).emitted)

/-- A non-clearing event is a message other than `SERVER_READY`, and those
leave the promise state unchanged. -/
lemma stepInit_nonclearing (st : InitState) (e : InitEvent)
    (h : clearsTimeout e = false) : stepInit st e = st := by
  cases e with
  | wsOpen => simp [clearsTimeout] at h
  | wsMessage m =>
    have hm : ¬ m.message = some "SERVER_READY" := by
      simpa [clearsTimeout] using h
    simp [stepInit, hm]
  | wsError => simp [clearsTimeout] at h
  | wsClose code => simp [clearsTimeout] at h

/-- Folding non-clearing events is the identity. -/
lemma foldl_nonclearing (evs : List InitEvent) (st : InitState)
    (h : ∀ e ∈ evs, clearsTimeout e = false) :
    evs.foldl stepInit st = st := by
  induction evs generalizing st with
  | nil => rfl
  | cons e rest ih =>
    rw [List.foldl_cons, stepInit_nonclearing st e (h e (List.mem_cons_self _ _))]
    exact ih st (fun x hx => h x (List.mem_cons_of_mem _ hx))

/-- A settled promise stays settled with the same outcome. -/
lemma stepInit_settled_some (st : InitState) (e : InitEvent)
    (o : SettleOutcome) (h : st.settled = some o) :
    (stepInit st e).settled = some o := by
  cases e with
  | wsOpen => exact h
  | wsMessage m =>
    by_cases hm : m.message = some "SERVER_READY"
    · simp [stepInit, hm, settleWith, h]
    · simpa [stepInit, hm] using h
  | wsError =>
    by_cases hr : st.serverReady <;> simp [stepInit, hr, settleWith, h]
  | wsClose code => simp [stepInit, settleWith, h]

/-- Folding any events preserves a settled promise. -/
lemma foldl_settled_some (evs : List InitEvent) (st : InitState)
    (o : SettleOutcome) (h : st.settled = some o) :
    (evs.foldl stepInit st).settled = some o := by
  induction evs generalizing st with
  | nil => exact h
  | cons e rest ih =>
    rw [List.foldl_cons]
    exact ih _ (stepInit_settled_some st e o h)

/-! ## Claim theorems: initialization -/

/-- C4 counterexample: the `open` handler calls `clearTimeout`, so in the
execution where the transport opens at second 5 and nothing else ever
happens — in particular no readiness message ever arrives — the inner
promise never settles and `initialize()` neither succeeds nor fails. -/
theorem init_open_then_silence_never_settles :
    initSettle [(5, InitEvent.wsOpen)] = none
    ∧ (initializeRun false [(5, InitEvent.wsOpen)]).1 = InitCompletion.pending := by
  decide

/-- C4 amended: the 10 second timer only covers the window before the
first `clearTimeout` (transport open, readiness message, error or close).
If no such event occurs before second 10, the inner promise rejects with
the timeout error and `initialize()` completes with failure, resolving
`false` after emitting an `error` event.  Once the transport opens, the
timer is cancelled, and absence of readiness alone never fails
initialization (see the counterexample). -/
theorem init_timeout_when_nothing_clears (tr : List (ℚ × InitEvent))
    (h : ∀ e ∈ tr, e.1 < 10 → clearsTimeout e.2 = false) :
    initSettle tr = some SettleOutcome.rejectedTimeout
    ∧ (initializeRun false tr).1 = InitCompletion.resolvedWith false
    ∧ "error" ∈ (initializeRun false tr).2 := by
  have hfires : timerFires tr = true := by
    simp only [timerFires, List.all_eq_true]
    intro p hp
    by_cases ht : p.1 < 10
    · simp [ht, h p hp ht]
    · simp [ht]
  have hpre : ∀ e ∈ (tr.filter (fun e => decide (e.1 < 10))).map Prod.snd,
      clearsTimeout e = false := by
    intro e he
    obtain ⟨p, hpmem, hpe⟩ := List.mem_map.mp he
    obtain ⟨hptr, hplt⟩ := List.mem_filter.mp hpmem
    exact hpe ▸ h p hptr (by simpa using hplt)
  have hs : (runInit tr).settled = some SettleOutcome.rejectedTimeout := by
    unfold runInit
    rw [if_pos hfires]
    apply foldl_settled_some
    rw [foldl_nonclearing _ _ hpre]
    rfl
  refine ⟨hs, ?_, ?_⟩ <;> simp [initializeRun, hs]

/-- C4 amended witness: with an empty trace (nothing ever happens) the
timer fires and initialization fails. -/
theorem init_timeout_witness :
    initSettle [] = some SettleOutcome.rejectedTimeout
    ∧ (initializeRun false []).1 = InitCompletion.resolvedWith false
    ∧ "error" ∈ (initializeRun false []).2 :=
  init_timeout_when_nothing_clears [] (by simp)

/-- C8 counterexample: in the concrete failing execution where nothing
ever happens (readiness timeout), `initialize()` does not reject — it
resolves with `false`, emitting the `error` event. -/
theorem init_failure_not_rejected_concrete :
    (initializeRun false []).1 = InitCompletion.resolvedWith false
    ∧ isRejectedCompletion (initializeRun false []).1 = false
    ∧ (initializeRun false []).2 = ["error"] := by
  decide

/-- C8 amended: `initialize()` never rejects: every failure — failing
backend start, or an inner-promise rejection (transport error or closure
before readiness, readiness timeout) — is caught, surfaced as an emitted
`error` event, and completes `initialize()` by resolving `false`. -/
theorem init_failures_resolve_false_with_error_event :
    (∀ (sf : Bool) (tr : List (ℚ × InitEvent)),
        isRejectedCompletion (initializeRun sf tr).1 = false)
    ∧ (∀ (sf : Bool) (tr : List (ℚ × InitEvent)),
        sf = true ∨ (∃ o, initSettle tr = some o ∧ o ≠ SettleOutcome.resolvedTrue) →
        (initializeRun sf tr).1 = InitCompletion.resolvedWith false
        ∧ "error" ∈ (initializeRun sf tr).2) := by
  constructor
  · intro sf tr
    cases sf with
    | true => simp [initializeRun, isRejectedCompletion]
    | false =>
      rcases hset : (runInit tr).settled with _ | o
      · simp [initializeRun, hset, isRejectedCompletion]
      · cases o <;> simp [initializeRun, hset, isRejectedCompletion]
  · intro sf tr h
    rcases h with h | ⟨o, ho, hne⟩
    · subst h
      simp [initializeRun]
    · unfold initSettle at ho
      cases o with
      | resolvedTrue => exact absurd rfl hne
      | rejectedTimeout => cases sf <;> simp [initializeRun, ho]
      | rejectedError => cases sf <;> simp [initializeRun, ho]
      | rejectedClosed => cases sf <;> simp [initializeRun, ho]

/-- C8 amended witness: a failing backend start resolves `false` with an
`error` event. -/
theorem init_failures_resolve_witness :
    (initializeRun true []).1 = InitCompletion.resolvedWith false
    ∧ "error" ∈ (initializeRun true []).2 :=
  init_failures_resolve_false_with_error_event.2 true [] (Or.inl rfl)

end Zen
